/-
  Verification of the Slack notification-router worker
  (src/worker/index.js, src/worker/config.js, src/worker/utils.js).

  The JavaScript source is shallowly embedded: each JS function used by a
  claim is translated into a Lean definition; looseness of JS values that
  the code actually exercises (absent fields, non-string field values,
  truthiness, strict equality) is modelled explicitly.
-/
import Mathlib

set_option maxRecDepth 4000

/-- Model of a loosely-typed JS value as it appears in event fields.
`undefined` stands for an absent field (`undefined`); `str s` a string value;
`other b` any non-string, non-undefined value (number, object, null, ...),
carrying only its JS truthiness `b` — the worker never inspects such a
value beyond truthiness and strict comparison against strings/undefined. -/
inductive JVal where
  | undefined
  | str (s : String)
  | other (truthy : Bool)
deriving DecidableEq

/-- JS truthiness of a `JVal`: `undefined` is falsy, a string is truthy iff
non-empty, and `other` carries its own truthiness. -/
def truthyJ : JVal → Bool
  | .undefined => false
  | .str s => s ≠ ""
  | .other b => b

/-- JS strict equality (`===`) between an event-field value and a value that
is either a string or `undefined` (all comparisons in the worker are of this
shape: a field against an env value or a string literal).  A non-string,
non-undefined value is strictly equal to neither. -/
def strictEqJ : JVal → JVal → Bool
  | .str s, .str t => s == t
  | .undefined, .undefined => true
  | _, _ => false

/-- An env-variable value (a string, or `undefined` when unset) as a `JVal`. -/
def envVal : Option String → JVal
  | some s => .str s
  | none => .undefined

/-- JS truthiness of a string-or-undefined value (env variables, header
values, the resolved target channel): falsy iff absent or empty. -/
def truthyOpt : Option String → Bool
  | some s => s ≠ ""
  | none => false

/-- `v || d` for a string-or-absent `v` against a string default `d`
(JS returns `d` when `v` is absent or the empty string). -/
def jsOrElse (v : Option String) (d : String) : String :=
  match v with
  | some s => if s = "" then d else s
  | none => d

/-- The nested text object carried by a Block Kit block (`block.text`);
its own `text` field may be absent. -/
structure BlockText where
  text : Option String
deriving DecidableEq

/-- A Block Kit block: a `type` tag and an optional nested text object,
as read by `extractText` (`block.type`, `block.text?.text`). -/
structure Block where
  type : Option String
  text : Option BlockText
deriving DecidableEq

/-- `block.text?.text` — the nested text string, if both levels are present. -/
def bText (b : Block) : Option String :=
  match b.text with
  | some bt => bt.text
  | none => none

/-- Truthiness of `block.text?.text` (present and non-empty). -/
def bTextTruthy (b : Block) : Bool :=
  match bText b with
  | some s => s ≠ ""
  | none => false

/-- The nested text string used in the append (only read when truthy). -/
def bTextStr (b : Block) : String :=
  (bText b).getD ""

/-- A Slack message event as read by the worker.  `channel`, `type` and
`bot_id` are loosely typed (`JVal`) because the handler compares them with
`===` against env values; `text` is a string or absent; `blocks` is
`some bs` exactly when `event.blocks` is an array (`none` covers an absent
or non-array value, which the `Array.isArray` guard skips). -/
structure EventJ where
  channel : JVal
  type : JVal
  bot_id : JVal
  text : Option String
  blocks : Option (List Block)
deriving DecidableEq

/-- The body of the `for (const block of event.blocks)` loop in
`extractText` (src/worker/index.js lines 28-35): append
`"\n" + block.text.text` when the block is a `header` with truthy nested
text, and again when it is a `section` with truthy nested text (the two
separate `if`s of the source). -/
def extractStep (text : String) (block : Block) : String :=
  let text1 := if block.type == some "header" && bTextTruthy block then
      text ++ "\n" ++ bTextStr block else text
  if block.type == some "section" && bTextTruthy block then
    text1 ++ "\n" ++ bTextStr block else text1

/-- `extractText` from src/worker/index.js lines 23-39 (identical copies in
utils.js and config.js): starts from `event.text || ""`, then runs the
block loop over an array-valued `event.blocks`. -/
def extractText (e : EventJ) : String :=
  let base := jsOrElse e.text ""
  match e.blocks with
  | none => base
  | some blocks => blocks.foldl extractStep base

/-- Written from the spec wording for the Text Extractor: the fragment a
block contributes — its nested text when the block is tagged `"header"` or
`"section"` and the nested text field is non-empty, nothing otherwise. -/
def specFragment (b : Block) : Option String :=
  if (b.type == some "header" || b.type == some "section") && bTextTruthy b then
    some (bTextStr b)
  else none

/-- Written from the spec wording for the Text Extractor: start from
`event.text` (empty string if absent) and append, in array order, the
nested text of every block tagged `"header"` or `"section"` carrying a
non-empty nested text field, each fragment separated by a newline;
other tags contribute nothing. -/
def extractTextSpec (e : EventJ) : String :=
  let base := jsOrElse e.text ""
  let fragments := (e.blocks.getD []).filterMap specFragment
  fragments.foldl (fun t s => t ++ "\n" ++ s) base

/-- Outcome of one downstream `fetch` attempt: an HTTP response with the
given status, or a thrown network-level transport error. -/
inductive FetchResult where
  | resp (status : Nat)
  | netErr (msg : String)
deriving DecidableEq

/-- `res.ok`: status in the range 200-299. -/
def resOk (status : Nat) : Bool :=
  decide (200 ≤ status ∧ status < 300)

/-- `MAX_RETRIES = 3` from the source. -/
def MAX_RETRIES : Nat := 3

/-- `baseDelay * 2 ** i` with `baseDelay = 500` — the backoff sleep (ms)
performed after failed attempt `i`. -/
def backoff (i : Nat) : Nat := 500 * 2 ^ i

/-- Result of one `sendWithRetry` call: a returned response object (with
its status) or a thrown exception (with its message). -/
inductive SendResult where
  | ok (status : Nat)
  | error (msg : String)
deriving DecidableEq

/-- Observable trace of one `sendWithRetry` call: its result (`.ok status`
when a response object is returned, `.error msg` when an exception is
thrown), the number of `fetch` calls performed, and the backoff sleeps
performed, in order. -/
structure SendTrace where
  result : SendResult
  fetchCount : Nat
  delays : List Nat
deriving DecidableEq

/-- The argument bound to `sendWithRetry`'s `retries` parameter.  The
declared default is the number `MAX_RETRIES`, but the call sites in
`forwardMessage` pass the fetch *options object* positionally, so the
parameter can also hold a non-numeric object. -/
inductive RetriesArg where
  | num (n : Nat)
  | objArg
deriving DecidableEq

/-- Number of iterations of `for (let i = 0; i < retries; i++)`.  When
`retries` is the options object, JS coerces it with `ToNumber` to `NaN`
and `0 < NaN` is false, so the loop body never runs. -/
def loopBound : RetriesArg → Nat
  | .num n => n
  | .objArg => 0

/-- The retry loop of `sendWithRetry` (src/worker/index.js lines 49-62,
identical in utils.js/config.js), as a recursion on the number of
iterations still permitted (`remaining = retries - i`): attempt `fetch`;
return the response if `res.ok`; on 429 or >=500 sleep `backoff i` and
continue; return any other response; on a thrown transport error, rethrow
when this was the last iteration (`i === retries - 1`, i.e. `remaining = 1`),
otherwise sleep and continue.  Falling off the loop throws the final error. -/
def sendLoop (att : Nat → FetchResult) (i : Nat) : Nat → SendTrace
  | 0 => ⟨.error "Slack API failed after maximum retries.", 0, []⟩
  | remaining + 1 =>
      match att i with
      | .resp s =>
          if resOk s then ⟨.ok s, 1, []⟩
          else if s == 429 || decide (500 ≤ s) then
            let t := sendLoop att (i + 1) remaining
            ⟨t.result, t.fetchCount + 1, backoff i :: t.delays⟩
          else ⟨.ok s, 1, []⟩
      | .netErr m =>
          if remaining = 0 then ⟨.error m, 1, []⟩
          else
            let t := sendLoop att (i + 1) remaining
            ⟨t.result, t.fetchCount + 1, backoff i :: t.delays⟩

/-- `sendWithRetry(request, retries)`: run the loop from `i = 0`.  The
environment function `att` gives the outcome of the `i`-th `fetch` call. -/
def sendWithRetry (att : Nat → FetchResult) (retries : RetriesArg) : SendTrace :=
  sendLoop att 0 (loopBound retries)

/-- The outbound JSON payload built by `forwardMessage`: target channel,
`event.text || "[no text]"`, and pass-through blocks when present. -/
structure Payload where
  channel : String
  text : String
  blocks : Option (List Block)
deriving DecidableEq

/-- Payload construction from `forwardMessage` (src/worker/index.js 71-81). -/
def mkPayload (event : EventJ) (targetChannel : String) : Payload :=
  ⟨targetChannel, jsOrElse event.text "[no text]", event.blocks⟩

/-- `forwardMessage` (src/worker/index.js lines 68-100) calls
`sendWithRetry("https://slack.com/api/chat.postMessage", (options))` with the
options object passed positionally as the `retries` parameter, so the send
runs with `retries = objArg`.  The result of `res.json()` only feeds
`console` logging, which is not modelled; the trace of the send is the
observable outcome (a thrown error propagates out of `forwardMessage`). -/
def forwardMessage (att : Nat → FetchResult) (_event : EventJ)
    (_targetChannel : String) : SendTrace :=
  sendWithRetry att RetriesArg.objArg

/-- A routing rule from config.js: a keyword regex (embedded as its `test`
predicate on strings) and the name of the env var holding the target
channel id. -/
structure Rule where
  keyword : String → Bool
  targetChannelEnv : String

/-- The shipped CONFIG (src/worker/config.js lines 1-10), parameterized by
the `test` predicate of the first rule's regex `/\bdeploy\w*\b/i`; the
fallback rule's regex `/.*/` matches every string, so its predicate is
constantly true. -/
def CONFIG (deployTest : String → Bool) : List Rule :=
  [⟨deployTest, "DEPLOYMENTS_CHANNEL_ID"⟩, ⟨fun _ => true, "STATUS_CHANNEL_ID"⟩]

/-- The environment object: maps an env-var name to its value (`none` when
unset, mirroring `undefined`). -/
abbrev EnvJ := String → Option String

/-- The rule-matching loop of the handler (src/worker/index.js lines
141-149): iterate the rules in order; at the first rule whose keyword tests
true on the text, set `targetChannel = env[rule.targetChannelEnv]` and
break; `targetChannel` stays null when no rule matches. -/
def loopTarget (env : EnvJ) (rules : List Rule) (text : String) : Option String :=
  match rules with
  | [] => none
  | r :: rs => if r.keyword text then env r.targetChannelEnv else loopTarget env rs text

/-- The destination *reference* selected by the loop: the
`targetChannelEnv` name of the first rule whose keyword matches. -/
def matchedRef (rules : List Rule) (text : String) : Option String :=
  (rules.find? (fun r => r.keyword text)).map Rule.targetChannelEnv

/-- The parsed envelope (`body`): discriminator `type`, the handshake
`challenge`, and the inner `event` (`none` models an absent event object,
on which the handler's `event.channel` access throws a TypeError). -/
structure BodyJ where
  type : Option String
  challenge : Option String
  event : Option EventJ

/-- The inbound request as seen by the handler: its method, its headers
(by name; `none` for an absent header) and the result of `request.json()`
(`none` when the body is not valid JSON and `json()` throws). -/
structure RequestJ where
  method : String
  headers : String → Option String
  jsonBody : Option BodyJ

/-- An HTTP response: status, body text, and content type when set. -/
structure ResponseJ where
  status : Nat
  body : String
  contentType : Option String
deriving DecidableEq

/-- Result of one handler invocation: the HTTP response and the list of
outbound delivery invocations (`forwardMessage` calls) performed. -/
structure HandlerResult where
  response : ResponseJ
  deliveries : List Payload
deriving DecidableEq

/-- `new Response(body.challenge, ...)`: an absent challenge yields an
empty response body (`Response(undefined)` has no body). -/
def jsBodyString : Option String → String
  | some s => s
  | none => ""

/-- The scope check inlined in the handler (src/worker/index.js line 124):
`event.channel !== env.SOURCE_CHANNEL_ID || event.type !== "message"`. -/
def scopeMismatch (env : EnvJ) (ev : EventJ) : Bool :=
  !(strictEqJ ev.channel (envVal (env "SOURCE_CHANNEL_ID"))) ||
  !(strictEqJ ev.type (JVal.str "message"))

/-- The optional bot filter (src/worker/index.js line 132):
`env.ALLOWED_BOT_ID && event.bot_id !== env.ALLOWED_BOT_ID`. -/
def botFiltered (env : EnvJ) (ev : EventJ) : Bool :=
  truthyOpt (env "ALLOWED_BOT_ID") &&
  !(strictEqJ ev.bot_id (envVal (env "ALLOWED_BOT_ID")))

/-- The worker's `fetch` handler (src/worker/index.js lines 102-165).
The whole body sits in a try/catch whose catch returns a 500
"Internal Error" response; the faults that can reach it are a
`request.json()` parse failure, the TypeError from reading
`event.channel` when `body.event` is absent, and the error thrown by
`forwardMessage`.  `rules` is the imported CONFIG list and `att` gives the
downstream outcome of each `fetch` attempt inside the delivery. -/
def fetchHandler (rules : List Rule) (att : Nat → FetchResult)
    (env : EnvJ) (req : RequestJ) : HandlerResult :=
  if req.method ≠ "POST" then ⟨⟨405, "Only POST allowed", none⟩, []⟩
  else
    match req.jsonBody with
    | none => ⟨⟨500, "Internal Error", none⟩, []⟩
    | some body =>
      if body.type == some "url_verification" then
        ⟨⟨200, jsBodyString body.challenge, some "text/plain"⟩, []⟩
      else if body.type == some "event_callback" then
        match body.event with
        | none => ⟨⟨500, "Internal Error", none⟩, []⟩
        | some ev =>
          if scopeMismatch env ev then ⟨⟨200, "Ignored", none⟩, []⟩
          else if botFiltered env ev then ⟨⟨200, "Ignored", none⟩, []⟩
          else
            match loopTarget env rules (extractText ev) with
            | none => ⟨⟨200, "Ignored", none⟩, []⟩
            | some targetChannel =>
              if targetChannel = "" then ⟨⟨200, "Ignored", none⟩, []⟩
              else
                let t := forwardMessage att ev targetChannel
                match t.result with
                | .error _ => ⟨⟨500, "Internal Error", none⟩, [mkPayload ev targetChannel]⟩
                | .ok _ => ⟨⟨200, "OK", none⟩, [mkPayload ev targetChannel]⟩
      else ⟨⟨200, "OK", none⟩, []⟩

/-- `shouldProcessEvent` (src/worker/utils.js lines 61-64, duplicated in
config.js): `if (!event || !event.channel || event.type !== "message")
return false; return event.channel === sourceChannelId;`.  A missing or
falsy event object (`none`) fails the check rather than faulting. -/
def shouldProcessEvent (event : Option EventJ) (sourceChannelId : JVal) : Bool :=
  match event with
  | none => false
  | some e =>
      if !(truthyJ e.channel) || !(strictEqJ e.type (JVal.str "message")) then false
      else strictEqJ e.channel sourceChannelId

/-- UTF-8 encoding of one character (what `TextEncoder.encode` produces
per code point). -/
def utf8Bytes (c : Char) : List Nat :=
  let n := c.toNat
  if n < 128 then [n]
  else if n < 2048 then [192 ||| (n >>> 6), 128 ||| (n &&& 63)]
  else if n < 65536 then
    [224 ||| (n >>> 12), 128 ||| ((n >>> 6) &&& 63), 128 ||| (n &&& 63)]
  else
    [240 ||| (n >>> 18), 128 ||| ((n >>> 12) &&& 63),
     128 ||| ((n >>> 6) &&& 63), 128 ||| (n &&& 63)]

/-- `new TextEncoder().encode(s)`: the UTF-8 bytes of a string. -/
def encodeStr (s : String) : List Nat :=
  s.data.flatMap utf8Bytes

/-- `timingSafeEqual` (src/worker/config.js lines 155-165): encode both
strings to bytes; false on a length mismatch; otherwise OR together the
XOR of every byte pair and compare the accumulator with zero. -/
def timingSafeEqual (a b : String) : Bool :=
  let aBytes := encodeStr a
  let bBytes := encodeStr b
  if aBytes.length ≠ bBytes.length then false
  else ((aBytes.zip bBytes).foldl (fun result p => result ||| (p.1 ^^^ p.2)) 0) == 0

/-- One byte rendered as `b.toString(16).padStart(2, "0")` (lowercase hex,
left-padded to two digits; bytes are < 256). -/
def byteToHex (b : Nat) : String :=
  let hexChar := fun (n : Nat) =>
    if n < 10 then Char.ofNat (48 + n) else Char.ofNat (87 + n)
  String.mk [hexChar ((b / 16) % 16), hexChar (b % 16)]

/-- `Array.from(bytes).map(b => b.toString(16).padStart(2, "0")).join("")`. -/
def hexEncode (bytes : List Nat) : String :=
  String.join (bytes.map byteToHex)

/-- Value of one decimal digit character. -/
def digitVal (c : Char) : Option Nat :=
  if 48 ≤ c.toNat ∧ c.toNat ≤ 57 then some (c.toNat - 48) else none

/-- A non-empty all-digit character list read as a decimal number. -/
def digitsToNat (ds : List Char) : Option Nat :=
  match ds with
  | [] => none
  | _ =>
      ds.foldl (fun acc c =>
        match acc, digitVal c with
        | some n, some d => some (n * 10 + d)
        | _, _ => none) (some 0)

/-- `Number(s)` restricted to the signed decimal integer strings Slack
timestamps use; `none` stands for `NaN` (for which the skew comparison
`NaN > 300` is false). -/
def jsNumberOpt (s : String) : Option Int :=
  match s.data with
  | [] => none
  | c :: rest =>
      if c = Char.ofNat 45 then (digitsToNat rest).map (fun n => -(n : Int))
      else (digitsToNat (c :: rest)).map (fun n => (n : Int))

/-- `verifySlackRequest` (src/worker/config.js lines 176-220).  The
HMAC-SHA256 primitive (`crypto.subtle.sign`) is an external platform API,
abstracted as `hmac : secret → message → digest bytes`; `now` is
`Math.floor(Date.now() / 1000)`.  Reads the two headers; fails when either
is missing/empty; fails when `|now - Number(timestamp)| > 300`; computes
`"v0=" + hex(hmac(secret, "v0:" + timestamp + ":" + rawBody))` and fails
unless it equals the supplied signature under `timingSafeEqual`. -/
def verifySlackRequest (hmac : String → String → List Nat) (now : Int)
    (headers : String → Option String) (rawBody : String)
    (signingSecret : String) : Bool :=
  match headers "x-slack-request-timestamp", headers "x-slack-signature" with
  | some timestamp, some slackSignature =>
      if timestamp = "" || slackSignature = "" then false
      else if (match jsNumberOpt timestamp with
               | some t => decide ((now - t).natAbs > 300)
               | none => false) then false
      else
        let baseString := "v0:" ++ timestamp ++ ":" ++ rawBody
        let computedSignature := "v0=" ++ hexEncode (hmac signingSecret baseString)
        if !(timingSafeEqual computedSignature slackSignature) then false
        else true
  | _, _ => false

/-- Written from the spec wording for the Rule Matcher: `d` is the
destination of the earliest rule in configured order whose pattern matches
the text — some prefix of rules all fail the test, the next rule passes it
and carries destination `d`. -/
def FirstMatchSpec (rules : List Rule) (text : String) (d : String) : Prop :=
  ∃ pre r post, rules = pre ++ r :: post ∧ r.keyword text = true ∧
    r.targetChannelEnv = d ∧ ∀ r2 ∈ pre, r2.keyword text = false

/-- Bitwise OR of naturals is zero iff both are zero. -/
theorem natOr_eq_zero_iff (m n : Nat) : m ||| n = 0 ↔ m = 0 ∧ n = 0 := by
  constructor
  · intro h
    constructor
    · apply Nat.zero_of_testBit_eq_false
      intro i
      have h2 := congrArg (fun x => Nat.testBit x i) h
      simp only [Nat.testBit_or, Nat.zero_testBit, Bool.or_eq_false_iff] at h2
      exact h2.1
    · apply Nat.zero_of_testBit_eq_false
      intro i
      have h2 := congrArg (fun x => Nat.testBit x i) h
      simp only [Nat.testBit_or, Nat.zero_testBit, Bool.or_eq_false_iff] at h2
      exact h2.2
  · rintro ⟨rfl, rfl⟩
    rfl

/-- The XOR-accumulating fold of `timingSafeEqual` is zero iff the starting
accumulator is zero and every byte pair agrees. -/
theorem foldl_orXor_eq_zero (l : List (Nat × Nat)) (acc : Nat) :
    l.foldl (fun result p => result ||| (p.1 ^^^ p.2)) acc = 0 ↔
      acc = 0 ∧ ∀ p ∈ l, p.1 = p.2 := by
  induction l generalizing acc with
  | nil => simp
  | cons hd tl ih =>
      rw [List.foldl_cons, ih, natOr_eq_zero_iff, Nat.xor_eq_zero]
      constructor
      · rintro ⟨⟨h1, h2⟩, h3⟩
        exact ⟨h1, by
          intro p hp
          rcases List.mem_cons.mp hp with h | h
          · subst h; exact h2
          · exact h3 p h⟩
      · rintro ⟨h1, h2⟩
        exact ⟨⟨h1, h2 hd (List.mem_cons_self hd tl)⟩,
          fun p hp => h2 p (List.mem_cons_of_mem hd hp)⟩

/-- Equal-length lists with pointwise-equal zip pairs are equal. -/
theorem zip_pairs_eq_iff (a b : List Nat) (h : a.length = b.length) :
    (∀ p ∈ a.zip b, p.1 = p.2) ↔ a = b := by
  induction a generalizing b with
  | nil =>
      cases b with
      | nil => simp
      | cons y ys => simp at h
  | cons x xs ih =>
      cases b with
      | nil => simp at h
      | cons y ys =>
          simp only [List.length_cons, Nat.succ.injEq] at h
          simp only [List.zip_cons_cons, List.mem_cons, List.cons.injEq]
          constructor
          · intro hp
            refine ⟨hp (x, y) (Or.inl rfl), ?_⟩
            exact (ih ys h).mp (fun p hmem => hp p (Or.inr hmem))
          · rintro ⟨rfl, rfl⟩
            intro p hp
            rcases hp with hz | hz
            · subst hz; rfl
            · exact ((ih xs rfl).mpr rfl) p hz

/-- `timingSafeEqual` succeeds exactly when the two strings have identical
UTF-8 byte sequences. -/
theorem timingSafeEqual_iff (a b : String) :
    timingSafeEqual a b = true ↔ encodeStr a = encodeStr b := by
  unfold timingSafeEqual
  by_cases h : (encodeStr a).length = (encodeStr b).length
  · simp only [h, ne_eq, not_true_eq_false, if_false, beq_iff_eq,
      foldl_orXor_eq_zero, true_and]
    rw [zip_pairs_eq_iff _ _ h]
  · simp only [ne_eq, h, not_false_eq_true, if_true]
    constructor
    · intro hfalse
      exact absurd hfalse (by simp)
    · intro heq
      exact absurd (congrArg List.length heq) h

/-- C9: for every pair of equal-length byte strings, the constant-time
comparison returns true iff every corresponding byte pair is equal; for
every pair of unequal-length inputs it returns false. -/
theorem timingSafeEqual_spec (a b : String) :
    ((encodeStr a).length = (encodeStr b).length →
      (timingSafeEqual a b = true ↔
        ∀ p ∈ (encodeStr a).zip (encodeStr b), p.1 = p.2))
    ∧ ((encodeStr a).length ≠ (encodeStr b).length → timingSafeEqual a b = false) := by
  constructor
  · intro h
    rw [timingSafeEqual_iff, zip_pairs_eq_iff _ _ h]
  · intro h
    cases hv : timingSafeEqual a b with
    | false => rfl
    | true =>
        exact absurd (congrArg List.length ((timingSafeEqual_iff a b).mp hv)) h

/-- Witness for `timingSafeEqual_spec` at concrete inputs: equal strings
compare true, equal-length different strings compare false (via the byte
condition), unequal-length strings compare false. -/
theorem timingSafeEqual_spec_witness :
    timingSafeEqual "abc" "abc" = true ∧ timingSafeEqual "ab" "abc" = false := by
  constructor
  · exact ((timingSafeEqual_spec "abc" "abc").1 (by decide)).mpr (by decide)
  · exact (timingSafeEqual_spec "ab" "abc").2 (by decide)

/-- One loop step appends exactly the block's spec fragment: the two
sequential `if`s of the source cannot both fire (a block's `type` cannot be
both `"header"` and `"section"`), so the step appends the nested text once
when either tag matches with truthy nested text, and nothing otherwise. -/
theorem extractStep_eq (acc : String) (b : Block) :
    extractStep acc b = match specFragment b with
      | some s => acc ++ "\n" ++ s
      | none => acc := by
  unfold extractStep specFragment
  cases hb : b.type with
  | none => simp [hb]
  | some s =>
      by_cases h1 : s = "header"
      · subst h1
        cases ht : bTextTruthy b <;> simp [hb, ht]
      · by_cases h2 : s = "section"
        · subst h2
          cases ht : bTextTruthy b <;> simp [hb, ht]
        · simp [hb, h1, h2]

/-- The block loop equals the newline-joined fold over the spec fragments. -/
theorem foldl_extractStep (bs : List Block) (acc : String) :
    bs.foldl extractStep acc =
      (bs.filterMap specFragment).foldl (fun t s => t ++ "\n" ++ s) acc := by
  induction bs generalizing acc with
  | nil => rfl
  | cons b tl ih =>
      rw [List.foldl_cons, extractStep_eq, List.filterMap_cons]
      cases hf : specFragment b with
      | none => simp only [ih]
      | some s => simp only [List.foldl_cons, ih]

/-- C8: for every event, extractText returns the string that starts from
event.text (empty string if absent) and appends, in array order, the nested
text.text of every block whose type is "header" or "section" and whose
nested text field is non-empty, each appended fragment separated by a
newline; blocks with other type tags contribute nothing; the function is a
pure Lean function, hence deterministic. -/
theorem extractText_eq_spec (e : EventJ) : extractText e = extractTextSpec e := by
  unfold extractText extractTextSpec
  cases hb : e.blocks with
  | none => rfl
  | some blocks => simp only [Option.getD_some, foldl_extractStep]


/-- A fetch outcome the loop retries on: a response with non-ok status that
is 429 or any 5xx, or a thrown transport error. -/
def retryable : FetchResult → Prop
  | .resp s => resOk s = false ∧ (s = 429 ∨ 500 ≤ s)
  | .netErr _ => True

instance : DecidablePred retryable := fun fr =>
  match fr with
  | .resp s => inferInstanceAs (Decidable (resOk s = false ∧ (s = 429 ∨ 500 ≤ s)))
  | .netErr _ => inferInstanceAs (Decidable True)

/-- Unfolding step of the loop when the current fetch returns a response. -/
theorem sendLoop_succ_resp (att : Nat → FetchResult) (i m s : Nat)
    (hatt : att i = FetchResult.resp s) :
    sendLoop att i (m + 1) =
      (if resOk s then ⟨.ok s, 1, []⟩
       else if s == 429 || decide (500 ≤ s) then
         let t := sendLoop att (i + 1) m
         ⟨t.result, t.fetchCount + 1, backoff i :: t.delays⟩
       else ⟨.ok s, 1, []⟩ : SendTrace) := by
  have hstep : sendLoop att i (m + 1) =
      match att i with
      | .resp s =>
          if resOk s then ⟨.ok s, 1, []⟩
          else if s == 429 || decide (500 ≤ s) then
            let t := sendLoop att (i + 1) m
            ⟨t.result, t.fetchCount + 1, backoff i :: t.delays⟩
          else ⟨.ok s, 1, []⟩
      | .netErr m2 =>
          if m = 0 then ⟨.error m2, 1, []⟩
          else
            let t := sendLoop att (i + 1) m
            ⟨t.result, t.fetchCount + 1, backoff i :: t.delays⟩ := rfl
  rw [hstep, hatt]

/-- Unfolding step of the loop when the current fetch throws. -/
theorem sendLoop_succ_netErr (att : Nat → FetchResult) (i m : Nat) (m2 : String)
    (hatt : att i = FetchResult.netErr m2) :
    sendLoop att i (m + 1) =
      (if m = 0 then ⟨.error m2, 1, []⟩
       else
         let t := sendLoop att (i + 1) m
         ⟨t.result, t.fetchCount + 1, backoff i :: t.delays⟩ : SendTrace) := by
  have hstep : sendLoop att i (m + 1) =
      match att i with
      | .resp s =>
          if resOk s then ⟨.ok s, 1, []⟩
          else if s == 429 || decide (500 ≤ s) then
            let t := sendLoop att (i + 1) m
            ⟨t.result, t.fetchCount + 1, backoff i :: t.delays⟩
          else ⟨.ok s, 1, []⟩
      | .netErr m2 =>
          if m = 0 then ⟨.error m2, 1, []⟩
          else
            let t := sendLoop att (i + 1) m
            ⟨t.result, t.fetchCount + 1, backoff i :: t.delays⟩ := rfl
  rw [hstep, hatt]

/-- The loop makes at most as many fetch calls as it has iterations. -/
theorem sendLoop_fetchCount_le (att : Nat → FetchResult) (i n : Nat) :
    (sendLoop att i n).fetchCount ≤ n := by
  induction n generalizing i with
  | zero => simp [sendLoop]
  | succ m ih =>
      cases hatt : att i with
      | resp s =>
          rw [sendLoop_succ_resp att i m s hatt]
          cases hok : resOk s with
          | true => simp
          | false =>
              cases hr : (s == 429 || decide (500 ≤ s)) with
              | true =>
                  simp only [Bool.false_eq_true, if_false, if_true]
                  exact Nat.succ_le_succ (ih (i + 1))
              | false => simp
      | netErr m2 =>
          rw [sendLoop_succ_netErr att i m m2 hatt]
          by_cases hm : m = 0
          · simp [hm]
          · simp only [hm, if_false]
            exact Nat.succ_le_succ (ih (i + 1))

/-- With at least one iteration permitted, the loop fetches at least once. -/
theorem sendLoop_fetchCount_pos (att : Nat → FetchResult) (i n : Nat) (hn : 1 ≤ n) :
    1 ≤ (sendLoop att i n).fetchCount := by
  cases n with
  | zero => omega
  | succ m =>
      cases hatt : att i with
      | resp s =>
          rw [sendLoop_succ_resp att i m s hatt]
          cases hok : resOk s with
          | true => simp
          | false =>
              cases hr : (s == 429 || decide (500 ≤ s)) with
              | true => simp
              | false => simp
      | netErr m2 =>
          rw [sendLoop_succ_netErr att i m m2 hatt]
          by_cases hm : m = 0
          · simp [hm]
          · simp [hm]

/-- Every recorded backoff sleep follows the geometric schedule: the sleep
at position `j` of the delay list of a loop started at iteration `i` is
`backoff (i + j)`. -/
theorem sendLoop_delays_get (att : Nat → FetchResult) (i n j d : Nat)
    (h : (sendLoop att i n).delays.get? j = some d) : d = backoff (i + j) := by
  induction n generalizing i j with
  | zero => simp [sendLoop] at h
  | succ m ih =>
      cases hatt : att i with
      | resp s =>
          rw [sendLoop_succ_resp att i m s hatt] at h
          cases hok : resOk s with
          | true =>
              rw [hok] at h
              simp at h
          | false =>
              rw [hok] at h
              cases hr : (s == 429 || decide (500 ≤ s)) with
              | true =>
                  rw [hr] at h
                  simp only [Bool.false_eq_true, if_false, if_true] at h
                  cases j with
                  | zero =>
                      simp only [List.get?_cons_zero, Option.some.injEq] at h
                      rw [Nat.add_zero]
                      exact h.symm
                  | succ k =>
                      simp only [List.get?_cons_succ] at h
                      rw [ih (i + 1) k h]
                      congr 1
                      omega
              | false =>
                  rw [hr] at h
                  simp at h
      | netErr m2 =>
          rw [sendLoop_succ_netErr att i m m2 hatt] at h
          by_cases hm : m = 0
          · rw [if_pos hm] at h
            simp at h
          · rw [if_neg hm] at h
            cases j with
            | zero =>
                simp only [List.get?_cons_zero, Option.some.injEq] at h
                rw [Nat.add_zero]
                exact h.symm
            | succ k =>
                simp only [List.get?_cons_succ] at h
                rw [ih (i + 1) k h]
                congr 1
                omega

/-- The Bool retry condition of the source matches the status predicate. -/
theorem retryStatus_iff (s : Nat) :
    (s == 429 || decide (500 ≤ s)) = true ↔ (s = 429 ∨ 500 ≤ s) := by
  simp

/-- With at least two iterations permitted, a second fetch happens exactly
when the first outcome is retryable. -/
theorem sendLoop_retry_iff (att : Nat → FetchResult) (m : Nat) (hm : 1 ≤ m) :
    2 ≤ (sendLoop att 0 (m + 1)).fetchCount ↔ retryable (att 0) := by
  cases hatt : att 0 with
  | resp s =>
      rw [sendLoop_succ_resp att 0 m s hatt]
      cases hok : resOk s with
      | true => simp [retryable, hok]
      | false =>
          cases hr : (s == 429 || decide (500 ≤ s)) with
          | true =>
              simp only [hok, Bool.false_eq_true, if_false, hr, if_true]
              constructor
              · intro _
                exact ⟨hok, (retryStatus_iff s).mp hr⟩
              · intro _
                have := sendLoop_fetchCount_pos att (0 + 1) m hm
                show 2 ≤ (sendLoop att (0 + 1) m).fetchCount + 1
                omega
          | false =>
              simp only [hok, Bool.false_eq_true, if_false, hr]
              constructor
              · intro h2
                simp at h2
              · intro h2
                exact absurd ((retryStatus_iff s).mpr h2.2) (by simp [hr])
  | netErr m2 =>
      rw [sendLoop_succ_netErr att 0 m m2 hatt]
      rw [if_neg (by omega)]
      simp only [retryable, iff_true]
      have := sendLoop_fetchCount_pos att (0 + 1) m hm
      show 2 ≤ (sendLoop att (0 + 1) m).fetchCount + 1
      omega

/-- A response that is neither ok nor retryable is returned at once. -/
theorem sendLoop_nonretry (att : Nat → FetchResult) (m s : Nat)
    (hatt : att 0 = FetchResult.resp s) (hok : resOk s = false)
    (hnr : ¬(s = 429 ∨ 500 ≤ s)) :
    sendLoop att 0 (m + 1) = ⟨SendResult.ok s, 1, []⟩ := by
  rw [sendLoop_succ_resp att 0 m s hatt]
  rw [hok]
  rw [if_neg (by simp)]
  exact if_neg (fun hc => hnr ((retryStatus_iff s).mp hc))

/-- C4: with the declared default `retries = MAX_RETRIES`, the delivery
send makes at most 3 total fetch attempts; a retry happens exactly when the
first outcome is HTTP 429, any 5xx, or a thrown transport failure; any
other non-success status is returned immediately without retry or delay;
and the backoff sleep recorded after failed attempt `i` (0-indexed) is
`500 * 2 ^ i` milliseconds. -/
theorem sendWithRetry_policy (att : Nat → FetchResult) :
    (sendWithRetry att (RetriesArg.num MAX_RETRIES)).fetchCount ≤ 3
    ∧ (∀ j d, (sendWithRetry att (RetriesArg.num MAX_RETRIES)).delays.get? j = some d →
        d = 500 * 2 ^ j)
    ∧ (2 ≤ (sendWithRetry att (RetriesArg.num MAX_RETRIES)).fetchCount ↔ retryable (att 0))
    ∧ (∀ s, att 0 = FetchResult.resp s → resOk s = false → ¬(s = 429 ∨ 500 ≤ s) →
        sendWithRetry att (RetriesArg.num MAX_RETRIES) = ⟨SendResult.ok s, 1, []⟩) := by
  refine ⟨sendLoop_fetchCount_le att 0 3, ?_, ?_, ?_⟩
  · intro j d h
    have hd := sendLoop_delays_get att 0 3 j d h
    rw [hd]
    simp [backoff]
  · exact sendLoop_retry_iff att 2 (by omega)
  · intro s h1 h2 h3
    exact sendLoop_nonretry att 2 s h1 h2 h3

/-- Witness for `sendWithRetry_policy`: a persistently-500 downstream is
retried (backoff 1000ms recorded after the second failed attempt), and a
404 response returns after exactly one attempt with no delays. -/
theorem sendWithRetry_policy_witness :
    (sendWithRetry (fun _ => FetchResult.resp 500) (RetriesArg.num MAX_RETRIES)).fetchCount ≤ 3
    ∧ 2 ≤ (sendWithRetry (fun _ => FetchResult.resp 500) (RetriesArg.num MAX_RETRIES)).fetchCount
    ∧ 1000 = 500 * 2 ^ 1
    ∧ sendWithRetry (fun _ => FetchResult.resp 404) (RetriesArg.num MAX_RETRIES)
        = ⟨SendResult.ok 404, 1, []⟩ := by
  refine ⟨(sendWithRetry_policy (fun _ => FetchResult.resp 500)).1, ?_, ?_, ?_⟩
  · exact (sendWithRetry_policy (fun _ => FetchResult.resp 500)).2.2.1.mpr (by decide)
  · exact (sendWithRetry_policy (fun _ => FetchResult.resp 500)).2.1 1 1000 (by decide)
  · exact (sendWithRetry_policy (fun _ => FetchResult.resp 404)).2.2.2 404 rfl
      (by decide) (by decide)

/-- Central characterization: verification succeeds exactly when both
headers are present and non-empty, the timestamp does not parse to a stale
instant, and the supplied signature agrees byte-for-byte with the
recomputed one. -/
theorem verifySlackRequest_true_iff (hmac : String → String → List Nat) (now : Int)
    (headers : String → Option String) (rawBody secret : String) :
    verifySlackRequest hmac now headers rawBody secret = true ↔
      ∃ ts sig, headers "x-slack-request-timestamp" = some ts ∧ ts ≠ "" ∧
        headers "x-slack-signature" = some sig ∧ sig ≠ "" ∧
        (∀ t, jsNumberOpt ts = some t → (now - t).natAbs ≤ 300) ∧
        encodeStr ("v0=" ++ hexEncode (hmac secret ("v0:" ++ ts ++ ":" ++ rawBody)))
          = encodeStr sig := by
  unfold verifySlackRequest
  cases hts : headers "x-slack-request-timestamp" with
  | none =>
      constructor
      · intro h
        exact absurd h (by simp)
      · rintro ⟨ts, sig, h1, _⟩
        exact Option.noConfusion h1
  | some ts =>
      cases hsig : headers "x-slack-signature" with
      | none =>
          constructor
          · intro h
            exact absurd h (by simp)
          · rintro ⟨ts2, sig2, h1, h2, h3, _⟩
            exact Option.noConfusion h3
      | some sig =>
          show (if (decide (ts = "") || decide (sig = "")) = true then false
                else if (match jsNumberOpt ts with
                    | some t => decide ((now - t).natAbs > 300)
                    | none => false) = true then false
                else if (!timingSafeEqual
                    ("v0=" ++ hexEncode (hmac secret ("v0:" ++ ts ++ ":" ++ rawBody)))
                    sig) = true then false
                else true) = true ↔ _
          by_cases hts0 : ts = ""
          · rw [if_pos (by simp [hts0])]
            constructor
            · intro h
              exact absurd h (by simp)
            · rintro ⟨ts2, sig2, h1, h2, _⟩
              exact absurd ((Option.some.inj h1).symm.trans hts0) h2
          · by_cases hsig0 : sig = ""
            · rw [if_pos (by simp [hsig0])]
              constructor
              · intro h
                exact absurd h (by simp)
              · rintro ⟨ts2, sig2, h1, h2, h3, h4, _⟩
                exact absurd ((Option.some.inj h3).symm.trans hsig0) h4
            · rw [if_neg (by simp [hts0, hsig0])]
              by_cases hskew : (match jsNumberOpt ts with
                  | some t => decide ((now - t).natAbs > 300)
                  | none => false) = true
              · rw [if_pos hskew]
                constructor
                · intro h
                  exact absurd h (by simp)
                · rintro ⟨ts2, sig2, h1, h2, h3, h4, h5, h6⟩
                  have hts2 : ts2 = ts := (Option.some.inj h1).symm
                  subst hts2
                  cases hnum : jsNumberOpt ts2 with
                  | some t =>
                      simp only [hnum, decide_eq_true_eq] at hskew
                      have := h5 t hnum
                      omega
                  | none =>
                      simp only [hnum] at hskew
                      exact hskew
              · rw [if_neg hskew]
                cases htse : timingSafeEqual
                    ("v0=" ++ hexEncode (hmac secret ("v0:" ++ ts ++ ":" ++ rawBody))) sig with
                | false =>
                    rw [if_pos (by simp [htse])]
                    constructor
                    · intro h
                      exact absurd h (by simp)
                    · rintro ⟨ts2, sig2, h1, h2, h3, h4, h5, h6⟩
                      have hts2 : ts2 = ts := (Option.some.inj h1).symm
                      have hsig2 : sig2 = sig := (Option.some.inj h3).symm
                      subst hts2
                      subst hsig2
                      rw [(timingSafeEqual_iff _ _).mpr h6] at htse
                      exact Bool.noConfusion htse
                | true =>
                    rw [if_neg (by simp [htse])]
                    constructor
                    · intro _
                      refine ⟨ts, sig, rfl, hts0, rfl, hsig0, ?_,
                        (timingSafeEqual_iff _ _).mp htse⟩
                      intro t2 hnum2
                      simp only [hnum2, decide_eq_true_eq] at hskew
                      omega
                    · intro _
                      rfl

/-- C5: verification returns false for every request missing either
signature header, or whose numeric timestamp differs from `now` by more
than 300 seconds, or whose supplied signature differs in any byte from the
recomputed HMAC hex signature over `v0:timestamp:rawBody`; and it returns
true only when all three checks pass. -/
theorem verifySlackRequest_spec (hmac : String → String → List Nat) (now : Int)
    (headers : String → Option String) (rawBody secret : String) :
    ((headers "x-slack-request-timestamp" = none ∨ headers "x-slack-signature" = none) →
      verifySlackRequest hmac now headers rawBody secret = false)
    ∧ (∀ ts t, headers "x-slack-request-timestamp" = some ts →
        jsNumberOpt ts = some t → 300 < (now - t).natAbs →
        verifySlackRequest hmac now headers rawBody secret = false)
    ∧ (∀ ts sig, headers "x-slack-request-timestamp" = some ts →
        headers "x-slack-signature" = some sig →
        encodeStr sig ≠
          encodeStr ("v0=" ++ hexEncode (hmac secret ("v0:" ++ ts ++ ":" ++ rawBody))) →
        verifySlackRequest hmac now headers rawBody secret = false)
    ∧ (verifySlackRequest hmac now headers rawBody secret = true ↔
        ∃ ts sig, headers "x-slack-request-timestamp" = some ts ∧ ts ≠ "" ∧
          headers "x-slack-signature" = some sig ∧ sig ≠ "" ∧
          (∀ t, jsNumberOpt ts = some t → (now - t).natAbs ≤ 300) ∧
          encodeStr ("v0=" ++ hexEncode (hmac secret ("v0:" ++ ts ++ ":" ++ rawBody)))
            = encodeStr sig) := by
  refine ⟨?_, ?_, ?_, verifySlackRequest_true_iff hmac now headers rawBody secret⟩
  · intro hd
    cases hv : verifySlackRequest hmac now headers rawBody secret with
    | false => rfl
    | true =>
        obtain ⟨ts, sig, h1, _, h3, _⟩ :=
          (verifySlackRequest_true_iff hmac now headers rawBody secret).mp hv
        cases hd with
        | inl hd1 => rw [hd1] at h1; exact Option.noConfusion h1
        | inr hd2 => rw [hd2] at h3; exact Option.noConfusion h3
  · intro ts t h1 h2 h3
    cases hv : verifySlackRequest hmac now headers rawBody secret with
    | false => rfl
    | true =>
        obtain ⟨ts2, sig2, h1b, _, _, _, h5, _⟩ :=
          (verifySlackRequest_true_iff hmac now headers rawBody secret).mp hv
        rw [h1] at h1b
        have hts2 : ts2 = ts := (Option.some.inj h1b).symm
        subst hts2
        exact absurd (h5 t h2) (by omega)
  · intro ts sig h1 h2 hne
    cases hv : verifySlackRequest hmac now headers rawBody secret with
    | false => rfl
    | true =>
        obtain ⟨ts2, sig2, h1b, _, h3b, _, _, h6⟩ :=
          (verifySlackRequest_true_iff hmac now headers rawBody secret).mp hv
        rw [h1] at h1b
        rw [h2] at h3b
        have hts2 : ts2 = ts := (Option.some.inj h1b).symm
        have hsig2 : sig2 = sig := (Option.some.inj h3b).symm
        subst hts2
        subst hsig2
        exact absurd h6.symm hne

/-- Witness for `verifySlackRequest_spec` at concrete inputs: missing
headers fail; a stale numeric timestamp fails; a wrong signature fails; and
a fresh, correctly-signed request verifies. -/
theorem verifySlackRequest_spec_witness :
    verifySlackRequest (fun _ _ => [0]) 0 (fun _ => none) "body" "secret" = false
    ∧ verifySlackRequest (fun _ _ => [0]) 1000
        (fun n => if n = "x-slack-request-timestamp" then some "10"
                  else if n = "x-slack-signature" then some "v0=00" else none)
        "body" "secret" = false
    ∧ verifySlackRequest (fun _ _ => [0]) 0
        (fun n => if n = "x-slack-request-timestamp" then some "10"
                  else if n = "x-slack-signature" then some "beef" else none)
        "body" "secret" = false
    ∧ verifySlackRequest (fun _ _ => [0]) 0
        (fun n => if n = "x-slack-request-timestamp" then some "10"
                  else if n = "x-slack-signature" then some "v0=00" else none)
        "body" "secret" = true := by
  refine ⟨?_, ?_, ?_, ?_⟩
  · exact (verifySlackRequest_spec (fun _ _ => [0]) 0 (fun _ => none) "body" "secret").1
      (Or.inl rfl)
  · exact (verifySlackRequest_spec (fun _ _ => [0]) 1000
      (fun n => if n = "x-slack-request-timestamp" then some "10"
                else if n = "x-slack-signature" then some "v0=00" else none)
      "body" "secret").2.1 "10" 10 (by decide) (by decide) (by decide)
  · exact (verifySlackRequest_spec (fun _ _ => [0]) 0
      (fun n => if n = "x-slack-request-timestamp" then some "10"
                else if n = "x-slack-signature" then some "beef" else none)
      "body" "secret").2.2.1 "10" "beef" (by decide) (by decide) (by decide)
  · exact ((verifySlackRequest_spec (fun _ _ => [0]) 0
      (fun n => if n = "x-slack-request-timestamp" then some "10"
                else if n = "x-slack-signature" then some "v0=00" else none)
      "body" "secret").2.2.2).mpr
      ⟨"10", "v0=00", rfl, by decide, rfl, by decide, by decide, by decide⟩

/-- The handler's rule loop computes the first matching rule's destination
reference resolved through the environment. -/
theorem loopTarget_eq_matchedRef (env : EnvJ) (rules : List Rule) (text : String) :
    loopTarget env rules text = (matchedRef rules text).bind env := by
  induction rules with
  | nil => rfl
  | cons r rs ih =>
      cases hk : r.keyword text with
      | true => simp [loopTarget, matchedRef, hk]
      | false => simp [loopTarget, matchedRef, hk, ih]

/-- `matchedRef` selects exactly the earliest matching rule's destination. -/
theorem matchedRef_some_iff (rules : List Rule) (text : String) (d : String) :
    matchedRef rules text = some d ↔ FirstMatchSpec rules text d := by
  induction rules with
  | nil =>
      constructor
      · intro h
        exact Option.noConfusion h
      · rintro ⟨pre, r, post, heq, _⟩
        cases pre <;> simp at heq
  | cons a rs ih =>
      cases hk : a.keyword text with
      | true =>
          constructor
          · intro h
            have hd : some a.targetChannelEnv = some d := by
              simpa [matchedRef, hk] using h
            exact ⟨[], a, rs, rfl, hk, Option.some.inj hd,
              fun r2 hr2 => absurd hr2 (List.not_mem_nil r2)⟩
          · rintro ⟨pre, r, post, heq, hkw, hd, hpre⟩
            cases pre with
            | nil =>
                simp only [List.nil_append, List.cons.injEq] at heq
                obtain ⟨rfl, rfl⟩ := heq
                simp [matchedRef, hk, hd]
            | cons p ps =>
                simp only [List.cons_append, List.cons.injEq] at heq
                obtain ⟨hap, _⟩ := heq
                have hp := hpre p (by simp)
                rw [← hap, hk] at hp
                exact Bool.noConfusion hp
      | false =>
          constructor
          · intro h
            have h2 : matchedRef rs text = some d := by
              simpa [matchedRef, hk] using h
            obtain ⟨pre, r, post, heq, hkw, hd, hpre⟩ := ih.mp h2
            refine ⟨a :: pre, r, post, by rw [List.cons_append, heq], hkw, hd, ?_⟩
            intro r2 hr2
            rcases List.mem_cons.mp hr2 with hx | hx
            · rw [hx]
              exact hk
            · exact hpre r2 hx
          · rintro ⟨pre, r, post, heq, hkw, hd, hpre⟩
            cases pre with
            | nil =>
                simp only [List.nil_append, List.cons.injEq] at heq
                obtain ⟨rfl, _⟩ := heq
                rw [hk] at hkw
                exact Bool.noConfusion hkw
            | cons p ps =>
                simp only [List.cons_append, List.cons.injEq] at heq
                obtain ⟨_, hrs⟩ := heq
                have h2 : FirstMatchSpec rs text d :=
                  ⟨ps, r, post, hrs, hkw, hd,
                    fun r2 hr2 => hpre r2 (List.mem_cons_of_mem p hr2)⟩
                have h3 := ih.mpr h2
                simpa [matchedRef, hk] using h3

/-- `matchedRef` yields nothing exactly when no rule's pattern matches. -/
theorem matchedRef_none_iff (rules : List Rule) (text : String) :
    matchedRef rules text = none ↔ ∀ r ∈ rules, r.keyword text = false := by
  simp [matchedRef, List.find?_eq_none]

/-- Reduction of the handler on an in-scope event-callback request: the
outcome is decided by the rule loop's resolved target and the delivery. -/
theorem fetchHandler_event_branch (rules : List Rule) (att : Nat → FetchResult)
    (env : EnvJ) (req : RequestJ) (body : BodyJ) (ev : EventJ)
    (hm : req.method = "POST") (hb : req.jsonBody = some body)
    (ht : body.type = some "event_callback") (he : body.event = some ev)
    (hs : scopeMismatch env ev = false) (hbf : botFiltered env ev = false) :
    fetchHandler rules att env req =
      match loopTarget env rules (extractText ev) with
      | none => ⟨⟨200, "Ignored", none⟩, []⟩
      | some targetChannel =>
          if targetChannel = "" then ⟨⟨200, "Ignored", none⟩, []⟩
          else
            match (forwardMessage att ev targetChannel).result with
            | .error _ => ⟨⟨500, "Internal Error", none⟩, [mkPayload ev targetChannel]⟩
            | .ok _ => ⟨⟨200, "OK", none⟩, [mkPayload ev targetChannel]⟩ := by
  simp only [fetchHandler, hm, hb, ht, he, hs, hbf]
  rfl

/-- Reduction of the handler when the scope check rejects the event. -/
theorem fetchHandler_scope_ignored (rules : List Rule) (att : Nat → FetchResult)
    (env : EnvJ) (req : RequestJ) (body : BodyJ) (ev : EventJ)
    (hm : req.method = "POST") (hb : req.jsonBody = some body)
    (ht : body.type = some "event_callback") (he : body.event = some ev)
    (hs : scopeMismatch env ev = true) :
    fetchHandler rules att env req = ⟨⟨200, "Ignored", none⟩, []⟩ := by
  simp only [fetchHandler, hm, hb, ht, he, hs]
  rfl

/-- Reduction of the handler when `body.event` is absent: the TypeError
from `event.channel` is caught at the boundary and answered with 500. -/
theorem fetchHandler_absent_event (rules : List Rule) (att : Nat → FetchResult)
    (env : EnvJ) (req : RequestJ) (body : BodyJ)
    (hm : req.method = "POST") (hb : req.jsonBody = some body)
    (ht : body.type = some "event_callback") (he : body.event = none) :
    fetchHandler rules att env req = ⟨⟨500, "Internal Error", none⟩, []⟩ := by
  simp only [fetchHandler, hm, hb, ht, he]
  rfl

/-- C10: for every POST request whose envelope type is url_verification,
the handler responds 200 with Content-Type text/plain and a body exactly
equal to the envelope's challenge string, and performs no classification,
rule matching, or delivery (the result is the same for every rule list and
downstream behaviour, with an empty delivery list). -/
theorem url_verification_challenge_echo (rules : List Rule) (att : Nat → FetchResult)
    (env : EnvJ) (req : RequestJ) (body : BodyJ) (c : String)
    (hm : req.method = "POST") (hb : req.jsonBody = some body)
    (ht : body.type = some "url_verification") (hc : body.challenge = some c) :
    fetchHandler rules att env req = ⟨⟨200, c, some "text/plain"⟩, []⟩ := by
  simp only [fetchHandler, hm, hb, ht, hc]
  rfl

/-- Witness for `url_verification_challenge_echo` at a concrete request. -/
theorem url_verification_challenge_echo_witness :
    fetchHandler [] (fun _ => FetchResult.resp 200) (fun _ => none)
      ⟨"POST", fun _ => none, some ⟨some "url_verification", some "abc123", none⟩⟩
      = ⟨⟨200, "abc123", some "text/plain"⟩, []⟩ :=
  url_verification_challenge_echo [] (fun _ => FetchResult.resp 200) (fun _ => none)
    ⟨"POST", fun _ => none, some ⟨some "url_verification", some "abc123", none⟩⟩
    ⟨some "url_verification", some "abc123", none⟩ "abc123" rfl rfl rfl rfl

/-- C1: the deployed `fetch` handler never invokes `verifySlackRequest` —
a request carrying no signature headers at all (on which verification
returns false) is still fully processed and answered 200, never 403; in
fact the handler's result does not depend on the request headers in any
way.  This contradicts the claim (and the repository README, which states
every request is verified and rejected with 403 on failure), so the code,
not the claim, is at fault. -/
theorem fetch_skips_signature_verification :
    verifySlackRequest (fun _ _ => [0]) 0 (fun _ => none) "rawbody" "secret" = false
    ∧ fetchHandler [] (fun _ => FetchResult.resp 200) (fun _ => none)
        ⟨"POST", fun _ => none, some ⟨some "url_verification", some "xyz", none⟩⟩
        = ⟨⟨200, "xyz", some "text/plain"⟩, []⟩
    ∧ ∀ (rules : List Rule) (att : Nat → FetchResult) (env : EnvJ)
        (m : String) (h1 h2 : String → Option String) (b : Option BodyJ),
        fetchHandler rules att env ⟨m, h1, b⟩ = fetchHandler rules att env ⟨m, h2, b⟩ := by
  refine ⟨by decide, by decide, ?_⟩
  intro rules att env m h1 h2 b
  rfl

/-- C6: the matcher returns the destination reference of the earliest rule
in configured order whose pattern matches the full extracted text, and
yields no destination iff no rule's pattern matches; the handler's loop
resolves that reference through the environment; and when no (truthy)
destination results the handler responds 200 Ignored and makes no outbound
call. -/
theorem ruleMatcher_spec :
    (∀ (rules : List Rule) (text d : String),
        matchedRef rules text = some d ↔ FirstMatchSpec rules text d)
    ∧ (∀ (rules : List Rule) (text : String),
        matchedRef rules text = none ↔ ∀ r ∈ rules, r.keyword text = false)
    ∧ (∀ (env : EnvJ) (rules : List Rule) (text : String),
        loopTarget env rules text = (matchedRef rules text).bind env)
    ∧ (∀ (rules : List Rule) (att : Nat → FetchResult) (env : EnvJ) (req : RequestJ)
        (body : BodyJ) (ev : EventJ),
        req.method = "POST" → req.jsonBody = some body →
        body.type = some "event_callback" → body.event = some ev →
        scopeMismatch env ev = false → botFiltered env ev = false →
        truthyOpt (loopTarget env rules (extractText ev)) = false →
        fetchHandler rules att env req = ⟨⟨200, "Ignored", none⟩, []⟩) := by
  refine ⟨matchedRef_some_iff, matchedRef_none_iff, loopTarget_eq_matchedRef, ?_⟩
  intro rules att env req body ev hm hb ht he hs hbf htc
  rw [fetchHandler_event_branch rules att env req body ev hm hb ht he hs hbf]
  cases hlt : loopTarget env rules (extractText ev) with
  | none => rfl
  | some ch =>
      rw [hlt] at htc
      simp only [truthyOpt, ne_eq, decide_not, Bool.not_eq_false', decide_eq_true_eq] at htc
      subst htc
      rfl

/-- Witness for `ruleMatcher_spec`: a two-rule list where only the second
rule matches yields the second destination; an unmatched list yields none;
and a concrete in-scope request whose only rule resolves to an unset env
var is answered 200 Ignored with no outbound call. -/
theorem ruleMatcher_spec_witness :
    matchedRef [⟨fun _ => false, "A"⟩, ⟨fun _ => true, "B"⟩] "x" = some "B"
    ∧ matchedRef [⟨fun _ => false, "A"⟩] "x" = none
    ∧ fetchHandler [⟨fun _ => true, "STATUS_CHANNEL_ID"⟩] (fun _ => FetchResult.resp 200)
        (fun n => if n = "SOURCE_CHANNEL_ID" then some "C1" else none)
        ⟨"POST", fun _ => none, some ⟨some "event_callback", none,
          some ⟨JVal.str "C1", JVal.str "message", JVal.undefined, some "hello", none⟩⟩⟩
        = ⟨⟨200, "Ignored", none⟩, []⟩ := by
  refine ⟨?_, ?_, ?_⟩
  · exact (ruleMatcher_spec.1 _ "x" "B").mpr
      ⟨[⟨fun _ => false, "A"⟩], ⟨fun _ => true, "B"⟩, [], rfl, rfl, rfl, by
        intro r2 hr2
        rcases List.mem_singleton.mp hr2 with rfl
        rfl⟩
  · exact (ruleMatcher_spec.2.1 _ "x").mpr (by
      intro r hr
      rcases List.mem_singleton.mp hr with rfl
      rfl)
  · exact ruleMatcher_spec.2.2.2 _ _ _ _ _ _ rfl rfl rfl rfl (by decide) (by decide) (by decide)

/-- C7: when the first rule whose pattern matches the extracted text names
a destination env var that is unset or empty (falsy), the handler responds
200 Ignored and makes no outbound call, without falling through to any
later rule — for every tail of later rules, including ones that would
match and resolve. -/
theorem unresolved_destination_no_fallthrough (r : Rule) (rest : List Rule)
    (att : Nat → FetchResult) (env : EnvJ) (req : RequestJ) (body : BodyJ) (ev : EventJ)
    (hm : req.method = "POST") (hb : req.jsonBody = some body)
    (ht : body.type = some "event_callback") (he : body.event = some ev)
    (hs : scopeMismatch env ev = false) (hbf : botFiltered env ev = false)
    (hmatch : r.keyword (extractText ev) = true)
    (henv : truthyOpt (env r.targetChannelEnv) = false) :
    fetchHandler (r :: rest) att env req = ⟨⟨200, "Ignored", none⟩, []⟩ := by
  rw [fetchHandler_event_branch (r :: rest) att env req body ev hm hb ht he hs hbf]
  have hlt : loopTarget env (r :: rest) (extractText ev) = env r.targetChannelEnv := by
    simp [loopTarget, hmatch]
  rw [hlt]
  cases hv : env r.targetChannelEnv with
  | none => rfl
  | some ch =>
      rw [hv] at henv
      simp only [truthyOpt, ne_eq, decide_not, Bool.not_eq_false', decide_eq_true_eq] at henv
      subst henv
      rfl

/-- Witness for `unresolved_destination_no_fallthrough`: the deploy rule
matches but DEPLOYMENTS_CHANNEL_ID is unset, while the catch-all rule after
it would match and resolve to a set STATUS_CHANNEL_ID; the handler still
answers 200 Ignored with no outbound call. -/
theorem unresolved_destination_no_fallthrough_witness :
    fetchHandler (CONFIG (fun _ => true)) (fun _ => FetchResult.resp 200)
      (fun n => if n = "SOURCE_CHANNEL_ID" then some "C1"
                else if n = "STATUS_CHANNEL_ID" then some "C9" else none)
      ⟨"POST", fun _ => none, some ⟨some "event_callback", none,
        some ⟨JVal.str "C1", JVal.str "message", JVal.undefined, some "deployed", none⟩⟩⟩
      = ⟨⟨200, "Ignored", none⟩, []⟩ :=
  unresolved_destination_no_fallthrough ⟨fun _ => true, "DEPLOYMENTS_CHANNEL_ID"⟩
    [⟨fun _ => true, "STATUS_CHANNEL_ID"⟩] (fun _ => FetchResult.resp 200)
    (fun n => if n = "SOURCE_CHANNEL_ID" then some "C1"
              else if n = "STATUS_CHANNEL_ID" then some "C9" else none)
    ⟨"POST", fun _ => none, some ⟨some "event_callback", none,
      some ⟨JVal.str "C1", JVal.str "message", JVal.undefined, some "deployed", none⟩⟩⟩
    ⟨some "event_callback", none,
      some ⟨JVal.str "C1", JVal.str "message", JVal.undefined, some "deployed", none⟩⟩
    ⟨JVal.str "C1", JVal.str "message", JVal.undefined, some "deployed", none⟩
    rfl rfl rfl rfl (by decide) (by decide) rfl (by decide)

/-- Concrete environment for the delivery-failure scenario: source channel
C1, catch-all destination STATUS_CHANNEL_ID resolving to C9. -/
def envC2 : EnvJ := fun n =>
  if n = "SOURCE_CHANNEL_ID" then some "C1"
  else if n = "STATUS_CHANNEL_ID" then some "C9" else none

/-- Concrete in-scope message event for the delivery-failure scenario. -/
def evC2 : EventJ := ⟨JVal.str "C1", JVal.str "message", JVal.undefined, some "hello", none⟩

/-- Concrete event-callback request carrying `evC2`. -/
def reqC2 : RequestJ :=
  ⟨"POST", fun _ => none, some ⟨some "event_callback", none, some evC2⟩⟩

/-- C2 counterexample: a verified-shape, in-scope event matched by the
catch-all rule with a persistently-500 downstream is answered 500
"Internal Error", not 200 — the delivery failure does change the inbound
HTTP response, refuting the claim at this concrete input. -/
theorem delivery_failure_response_cex :
    (fetchHandler (CONFIG (fun _ => false)) (fun _ => FetchResult.resp 500)
      envC2 reqC2).response.status = 500
    ∧ (fetchHandler (CONFIG (fun _ => false)) (fun _ => FetchResult.resp 500)
      envC2 reqC2).response.status ≠ 200 := by
  decide

/-- C2 amended: for every verified-shape, in-scope event whose matched rule
resolves to a non-empty target channel, the handler responds 500 "Internal
Error" (for every downstream behaviour): `sendWithRetry` is invoked with
the fetch options object bound to its `retries` parameter, so its loop
performs zero fetch attempts and throws; nothing catches the error before
the outer boundary, which converts it to 500 rather than 200. -/
theorem delivery_failure_yields_500 (rules : List Rule) (att : Nat → FetchResult)
    (env : EnvJ) (req : RequestJ) (body : BodyJ) (ev : EventJ) (ch : String)
    (hm : req.method = "POST") (hb : req.jsonBody = some body)
    (ht : body.type = some "event_callback") (he : body.event = some ev)
    (hs : scopeMismatch env ev = false) (hbf : botFiltered env ev = false)
    (htc : loopTarget env rules (extractText ev) = some ch) (hch : ch ≠ "") :
    fetchHandler rules att env req = ⟨⟨500, "Internal Error", none⟩, [mkPayload ev ch]⟩
    ∧ (forwardMessage att ev ch).fetchCount = 0 := by
  constructor
  · rw [fetchHandler_event_branch rules att env req body ev hm hb ht he hs hbf]
    rw [htc]
    show (if ch = "" then (⟨⟨200, "Ignored", none⟩, []⟩ : HandlerResult)
          else match (forwardMessage att ev ch).result with
          | .error _ => ⟨⟨500, "Internal Error", none⟩, [mkPayload ev ch]⟩
          | .ok _ => ⟨⟨200, "OK", none⟩, [mkPayload ev ch]⟩) = _
    rw [if_neg hch]
    rfl
  · rfl

/-- Witness for `delivery_failure_yields_500` at the concrete scenario
inputs. -/
theorem delivery_failure_yields_500_witness :
    fetchHandler (CONFIG (fun _ => false)) (fun _ => FetchResult.resp 500) envC2 reqC2
      = ⟨⟨500, "Internal Error", none⟩, [mkPayload evC2 "C9"]⟩
    ∧ (forwardMessage (fun _ => FetchResult.resp 500) evC2 "C9").fetchCount = 0 :=
  delivery_failure_yields_500 (CONFIG (fun _ => false)) (fun _ => FetchResult.resp 500)
    envC2 reqC2 ⟨some "event_callback", none, some evC2⟩ evC2 "C9"
    rfl rfl rfl rfl (by decide) (by decide) (by decide) (by decide)

/-- C3 counterexample: an event_callback envelope with an entirely absent
event object is answered 500 "Internal Error" (the handler's unguarded
`event.channel` read throws, caught at the boundary) — not the claimed 200
ignored response. -/
theorem absent_event_faults_cex :
    fetchHandler [] (fun _ => FetchResult.resp 200) (fun _ => none)
      ⟨"POST", fun _ => none, some ⟨some "event_callback", none, none⟩⟩
      = ⟨⟨500, "Internal Error", none⟩, []⟩
    ∧ (fetchHandler [] (fun _ => FetchResult.resp 200) (fun _ => none)
      ⟨"POST", fun _ => none, some ⟨some "event_callback", none, none⟩⟩).response
      ≠ ⟨200, "Ignored", none⟩ := by
  decide

/-- C3 amended: when the event object is present, absent or mismatching
channel/type fields degrade to a 200 Ignored response with no outbound
call; but an entirely absent event object raises a TypeError in the
handler (which reads event.channel without a guard), caught at the
boundary and answered 500; the standalone shouldProcessEvent helper does
return a plain total boolean with the documented meaning — the handler
just never calls it. -/
theorem event_shape_defensive_amended (rules : List Rule) (att : Nat → FetchResult)
    (env : EnvJ) (req : RequestJ) (body : BodyJ) :
    (∀ ev : EventJ, req.method = "POST" → req.jsonBody = some body →
        body.type = some "event_callback" → body.event = some ev →
        (strictEqJ ev.channel (envVal (env "SOURCE_CHANNEL_ID")) = false ∨
          strictEqJ ev.type (JVal.str "message") = false) →
        fetchHandler rules att env req = ⟨⟨200, "Ignored", none⟩, []⟩)
    ∧ (req.method = "POST" → req.jsonBody = some body →
        body.type = some "event_callback" → body.event = none →
        fetchHandler rules att env req = ⟨⟨500, "Internal Error", none⟩, []⟩)
    ∧ (∀ (ev : Option EventJ) (src : JVal),
        shouldProcessEvent ev src = true ↔
          ∃ e, ev = some e ∧ truthyJ e.channel = true ∧
            strictEqJ e.type (JVal.str "message") = true ∧
            strictEqJ e.channel src = true) := by
  refine ⟨?_, ?_, ?_⟩
  · intro ev hm hb ht he hmis
    have hs : scopeMismatch env ev = true := by
      unfold scopeMismatch
      cases hmis with
      | inl h => simp [h]
      | inr h => simp [h]
    exact fetchHandler_scope_ignored rules att env req body ev hm hb ht he hs
  · intro hm hb ht he
    exact fetchHandler_absent_event rules att env req body hm hb ht he
  · intro ev src
    cases ev with
    | none =>
        simp [shouldProcessEvent]
    | some e =>
        unfold shouldProcessEvent
        cases hc : truthyJ e.channel with
        | false =>
            simp only [hc, Bool.not_false, Bool.true_or, if_true]
            constructor
            · intro h
              exact absurd h (by simp)
            · rintro ⟨e2, he2, h1, _⟩
              rw [(Option.some.inj he2)] at hc
              rw [hc] at h1
              exact Bool.noConfusion h1
        | true =>
            cases hty : strictEqJ e.type (JVal.str "message") with
            | false =>
                simp only [hc, hty, Bool.not_true, Bool.not_false, Bool.false_or, if_true]
                constructor
                · intro h
                  exact absurd h (by simp)
                · rintro ⟨e2, he2, _, h2, _⟩
                  rw [(Option.some.inj he2)] at hty
                  rw [hty] at h2
                  exact Bool.noConfusion h2
            | true =>
                simp only [hc, hty, Bool.not_true, Bool.or_self, Bool.false_eq_true, if_false]
                constructor
                · intro h
                  exact ⟨e, rfl, hc, hty, h⟩
                · rintro ⟨e2, he2, _, _, h3⟩
                  rw [← (Option.some.inj he2)] at h3
                  exact h3

/-- Witness for `event_shape_defensive_amended`: a present event whose
fields are all absent is answered 200 Ignored, and the classifier accepts
a well-formed matching event. -/
theorem event_shape_defensive_amended_witness :
    fetchHandler [] (fun _ => FetchResult.resp 200) (fun _ => none)
      ⟨"POST", fun _ => none, some ⟨some "event_callback", none,
        some ⟨JVal.undefined, JVal.undefined, JVal.undefined, none, none⟩⟩⟩
      = ⟨⟨200, "Ignored", none⟩, []⟩
    ∧ shouldProcessEvent
        (some ⟨JVal.str "C1", JVal.str "message", JVal.undefined, none, none⟩)
        (JVal.str "C1") = true := by
  constructor
  · exact (event_shape_defensive_amended [] (fun _ => FetchResult.resp 200) (fun _ => none)
      ⟨"POST", fun _ => none, some ⟨some "event_callback", none,
        some ⟨JVal.undefined, JVal.undefined, JVal.undefined, none, none⟩⟩⟩
      ⟨some "event_callback", none,
        some ⟨JVal.undefined, JVal.undefined, JVal.undefined, none, none⟩⟩).1
      ⟨JVal.undefined, JVal.undefined, JVal.undefined, none, none⟩
      rfl rfl rfl rfl (Or.inr (by decide))
  · exact ((event_shape_defensive_amended [] (fun _ => FetchResult.resp 200) (fun _ => none)
      ⟨"POST", fun _ => none, none⟩ ⟨none, none, none⟩).2.2
      (some ⟨JVal.str "C1", JVal.str "message", JVal.undefined, none, none⟩)
      (JVal.str "C1")).mpr
      ⟨⟨JVal.str "C1", JVal.str "message", JVal.undefined, none, none⟩, rfl,
        by decide, by decide, by decide⟩
